import Mathlib

/-!
Verification of `nrtest/results/csv.py` (`NumericCsvResult`).

The module has two pieces of logic:

* `_identify_format` — counts leading `#` header lines, reads a 1024-character
  sample from the position after them, and asks the Python `csv.Sniffer` for a
  dialect and a header guess, falling back to the `'excel'` default dialect
  when the sample has at most one whitespace-separated token or the sniffer
  raises `csv.Error`.  The sniffer itself is Python standard-library code, so
  it is modelled as an oracle (`SniffOracle`): an arbitrary pair of functions
  where `none` stands for a raised `csv.Error`.

* `compare` — walks the rows of the two files in lockstep (the rows, as the
  `csv.reader` yields them, are the input of the embedding), compares cells
  pairwise after attempting to parse each as a float, and accumulates a
  running maximum, running sum and count over the numeric-numeric pairs.
  Any structural mismatch returns the sentinel `FAILURE = (999.9, 999.9)`.

Numbers are modelled by exact rationals (`ℚ`): Python's binary floats are
replaced by exact arithmetic, and `float(...)` by a parser of finite decimal
and scientific literals (`pyFloat`).  The special spellings `inf`/`nan` and
PEP 515 digit underscores have no rational counterpart and parse as text here.
-/

namespace NrtestCsv

/-- One character of Python's `str.strip` / `str.split` whitespace class
(restricted to the ASCII whitespace that can appear in a CSV cell). -/
def pyWs (c : Char) : Bool :=
  c = ' ' ∨ c = '\t' ∨ c = '\n' ∨ c = '\r' ∨ c = '\x0b' ∨ c = '\x0c'

/-- Python `str.strip()`: drop leading and trailing whitespace. -/
def pyStrip (s : String) : String :=
  ⟨((s.toList.dropWhile pyWs).reverse.dropWhile pyWs).reverse⟩

/-- Decimal digit test. -/
def isDig (c : Char) : Bool :=
  '0' ≤ c ∧ c ≤ '9'

/-- Split a character list into its leading run of digits and the rest. -/
def splitDigits : List Char → List Char × List Char
  | [] => ([], [])
  | c :: cs =>
    if isDig c then
      let p := splitDigits cs
      (c :: p.1, p.2)
    else ([], c :: cs)

/-- Value of a digit string read in base ten. -/
def digitsToNat (l : List Char) : ℕ :=
  l.foldl (fun a c => 10 * a + (c.toNat - ('0').toNat)) 0

/-- Exponent digits (after an optional sign): all remaining characters must be
digits and at least one must be present. -/
def parseExpNat (cs : List Char) : Option ℤ :=
  let p := splitDigits cs
  if p.1.isEmpty ∨ ¬ p.2.isEmpty then none else some (digitsToNat p.1 : ℤ)

/-- Signed exponent body after `e`/`E`. -/
def parseExpSigned : List Char → Option ℤ
  | '+' :: cs => parseExpNat cs
  | '-' :: cs => (parseExpNat cs).map (fun n => -n)
  | cs => parseExpNat cs

/-- The optional exponent part: empty, or `e`/`E` followed by a signed integer. -/
def parseExp : List Char → Option ℤ
  | [] => some 0
  | 'e' :: cs => parseExpSigned cs
  | 'E' :: cs => parseExpSigned cs
  | _ => none

/-- Value of integer digits `ip` and fraction digits `fp` as a rational. -/
def mantissaVal (ip fp : List Char) : ℚ :=
  (digitsToNat ip : ℚ) + (digitsToNat fp : ℚ) / (10 : ℚ) ^ fp.length

/-- Unsigned mantissa with optional fraction, then optional exponent:
`digits [. digits] [exp]` or `. digits [exp]`, at least one digit in all. -/
def parseMantissa (cs : List Char) : Option ℚ :=
  let ip := splitDigits cs
  match ip.2 with
  | '.' :: rest =>
    let fp := splitDigits rest
    if ip.1.isEmpty ∧ fp.1.isEmpty then none
    else (parseExp fp.2).map (fun e => mantissaVal ip.1 fp.1 * (10 : ℚ) ^ e)
  | rest =>
    if ip.1.isEmpty then none
    else (parseExp rest).map (fun e => (digitsToNat ip.1 : ℚ) * (10 : ℚ) ^ e)

/-- Optional sign before the mantissa. -/
def parseSigned : List Char → Option ℚ
  | '+' :: cs => parseMantissa cs
  | '-' :: cs => (parseMantissa cs).map (fun q => -q)
  | cs => parseMantissa cs

/-- Python `float(s)` on a cell string, in the exact-rational model: surrounding
whitespace is stripped, then a finite decimal or scientific literal is read;
`none` models a raised `ValueError`. -/
def pyFloat (s : String) : Option ℚ :=
  parseSigned (pyStrip s).toList

/-- A parsed table cell: `float(row[i])` succeeded, or the string is kept. -/
inductive Cell where
  | num (v : ℚ)
  | str (s : String)
deriving DecidableEq

/-- Cell classification of `compare`: numeric-first, text as the fallback. -/
def parseCell (s : String) : Cell :=
  match pyFloat s with
  | some v => Cell.num v
  | none => Cell.str s

/-- The sentinel returned for every structural mismatch. -/
def FAILURE : ℚ × ℚ :=
  (999.9, 999.9)

/-- Per-cell relative deviation of a numeric-numeric pair, exactly the three
branches of the source: `0` when both are zero, `999.9` when only the
reference is zero, else `abs((cell - cell_ref) / cell_ref)`. -/
def delta (cell cellRef : ℚ) : ℚ :=
  if cell = 0 ∧ cellRef = 0 then 0
  else if cellRef = 0 then 999.9
  else |(cell - cellRef) / cellRef|

/-- The per-cell loop (`for i in range(len(row))`) over one row pair, threading
the accumulators `max_delta`, `avg_delta` (running sum) and `n_cells`;
`none` models an early `return FAILURE`. -/
def compareRow : List String → List String → ℚ → ℚ → ℕ → Option (ℚ × ℚ × ℕ)
  | [], [], maxD, sumD, n => some (maxD, sumD, n)
  | c :: cs, r :: rs, maxD, sumD, n =>
    match parseCell c, parseCell r with
    | Cell.num cv, Cell.num rv =>
      compareRow cs rs (max (delta cv rv) maxD) (sumD + delta cv rv) (n + 1)
    | Cell.str sc, Cell.str sr =>
      if pyStrip sc ≠ pyStrip sr then none else compareRow cs rs maxD sumD n
    | _, _ => none
  | _, _, _, _, _ => none

/-- The row walk (`while n_eofs == 0`): pull one row from each side; both ends
reached together terminate the walk, one side ending first or a row-length
mismatch is a `FAILURE`, and otherwise the per-cell loop runs. -/
def compareGo : List (List String) → List (List String) → ℚ → ℚ → ℕ →
    Option (ℚ × ℚ × ℕ)
  | [], [], maxD, sumD, n => some (maxD, sumD, n)
  | [], _ :: _, _, _, _ => none
  | _ :: _, [], _, _, _ => none
  | row :: rest, rowRef :: restRef, maxD, sumD, n =>
    if row.length ≠ rowRef.length then none
    else
      match compareRow row rowRef maxD sumD n with
      | none => none
      | some p => compareGo rest restRef p.1 p.2.1 p.2.2

/-- `NumericCsvResult.compare`, on the row streams the two `csv.reader`s yield
after the header lines were skipped: runs the walk from zeroed accumulators,
returns `FAILURE` on abort, and otherwise divides the running sum by
`n_cells` when `n_cells > 0`. -/
def NumericCsvResult.compare (rows rowsRef : List (List String)) : ℚ × ℚ :=
  match compareGo rows rowsRef 0 0 0 with
  | none => FAILURE
  | some p => (p.1, if 0 < p.2.2 then p.2.1 / (p.2.2 : ℚ) else p.2.1)

/-- Spec-side description (for the aggregation claims): the list of relative
deviations of the numeric-numeric cell pairs of one row pair, in order. -/
def rowDevs : List String → List String → List ℚ
  | c :: cs, r :: rs =>
    match parseCell c, parseCell r with
    | Cell.num cv, Cell.num rv => delta cv rv :: rowDevs cs rs
    | _, _ => rowDevs cs rs
  | _, _ => []

/-- Spec-side description: all per-cell numeric deviations of the lockstep
walk, rows in order. -/
def devsAll : List (List String) → List (List String) → List ℚ
  | row :: rest, rowRef :: restRef => rowDevs row rowRef ++ devsAll rest restRef
  | _, _ => []

/-! ### `_identify_format`

The file content is a list of characters; `readline` keeps the terminating
newline, so a "line" is everything up to and including the next `'\n'`. -/

/-- Drop one `readline` result: everything up to and including the next
newline (or the whole remainder when the file does not end in one). -/
def dropLine : List Char → List Char
  | [] => []
  | c :: rest => if c = '\n' then rest else dropLine rest

theorem dropLine_length_le (l : List Char) : (dropLine l).length ≤ l.length := by
  induction l with
  | nil => simp [dropLine]
  | cons c rest ih =>
    by_cases hc : c = '\n'
    · simp [dropLine, hc]
    · simp only [dropLine, hc, if_false, List.length_cons]
      omega

theorem dropLine_cons_lt (c : Char) (rest : List Char) :
    (dropLine (c :: rest)).length < (c :: rest).length := by
  by_cases hc : c = '\n'
  · simp [dropLine, hc]
  · simp only [dropLine, hc, if_false, List.length_cons]
    exact Nat.lt_of_le_of_lt (dropLine_length_le rest) (Nat.lt_succ_self _)

/-- The `while` loop of `_identify_format`: the number of leading lines whose
first character is `#`. -/
def countHash : List Char → ℕ
  | [] => 0
  | c :: rest => if c = '#' then countHash (dropLine (c :: rest)) + 1 else 0
termination_by l => l.length
decreasing_by apply dropLine_cons_lt

/-- The saved file offset of `_identify_format`: the content remaining after
the leading `#` lines, from which the 1024-character sample is read. -/
def dropHashLines : List Char → List Char
  | [] => []
  | c :: rest => if c = '#' then dropHashLines (dropLine (c :: rest)) else c :: rest
termination_by l => l.length
decreasing_by apply dropLine_cons_lt

/-- Total number of lines of the file (the last line need not end in a
newline). -/
def lineCount : List Char → ℕ
  | [] => 0
  | c :: rest => lineCount (dropLine (c :: rest)) + 1
termination_by l => l.length
decreasing_by apply dropLine_cons_lt

/-- Python `len(sample.split())`: the number of maximal whitespace-free runs. -/
def tokenCount (l : List Char) : ℕ :=
  (l.foldl
    (fun (st : Bool × ℕ) c =>
      if pyWs c then (false, st.2) else if st.1 then st else (true, st.2 + 1))
    (false, 0)).2

/-- A csv dialect: the `'excel'` default, or one inferred by the sniffer from
the candidate delimiters `',:;\t '`. -/
inductive Dialect where
  | excel
  | inferred (delimiter : Char)
deriving DecidableEq

/-- The Python-standard-library `csv.Sniffer`, modelled as an oracle: `none`
stands for a raised `csv.Error` (the `except CsvError` paths). -/
structure SniffOracle where
  sniff : List Char → Option Dialect
  has_header : List Char → Option Bool

/-- `csvfile.seek(pos); csvfile.read(1024)`: the sample the sniffer sees. -/
def sampleOf (content : List Char) : List Char :=
  (dropHashLines content).take 1024

/-- `NumericCsvResult._identify_format` on a file content: counts the leading
`#` lines, then either keeps the `'excel'` default (one-token sample, or a
sniffer error) or adopts the sniffed dialect, adding one header line when
`has_header` holds.  A `has_header` error also falls back to `'excel'`,
after which the header count is left unincremented. -/
def identify_format (o : SniffOracle) (content : List Char) : Dialect × ℕ :=
  let nHash := countHash content
  let sample := sampleOf content
  if tokenCount sample ≤ 1 then (Dialect.excel, nHash)
  else
    match o.sniff sample with
    | none => (Dialect.excel, nHash)
    | some d =>
      match o.has_header sample with
      | none => (Dialect.excel, nHash)
      | some b => (d, if b then nHash + 1 else nHash)

/-! ### Helper lemmas about the per-cell deviation -/

theorem delta_nonneg (c r : ℚ) : 0 ≤ delta c r := by
  unfold delta
  split
  · exact le_refl 0
  · split
    · norm_num
    · exact abs_nonneg _

theorem delta_self (v : ℚ) : delta v v = 0 := by
  unfold delta
  by_cases hv : v = 0
  · simp [hv]
  · simp [hv]

/-! ### Helper lemmas about `List.foldl max` -/

theorem le_foldl_max (l : List ℚ) (a : ℚ) : a ≤ l.foldl max a := by
  induction l generalizing a with
  | nil => exact le_refl a
  | cons x xs ih =>
    simp only [List.foldl_cons]
    exact le_trans (le_max_left a x) (ih (max a x))

theorem mem_le_foldl_max (l : List ℚ) (x : ℚ) (hx : x ∈ l) :
    ∀ a, x ≤ l.foldl max a := by
  induction l with
  | nil => cases hx
  | cons y ys ih =>
    intro a
    simp only [List.foldl_cons]
    rcases List.mem_cons.mp hx with h | h
    · subst h
      exact le_trans (le_max_right a x) (le_foldl_max ys (max a x))
    · exact ih h (max a y)

theorem foldl_max_choice (l : List ℚ) : ∀ a, l.foldl max a = a ∨ l.foldl max a ∈ l := by
  induction l with
  | nil =>
    intro a
    exact Or.inl rfl
  | cons y ys ih =>
    intro a
    simp only [List.foldl_cons]
    rcases ih (max a y) with h | h
    · rcases max_choice a y with h2 | h2
      · exact Or.inl (h.trans h2)
      · exact Or.inr (by rw [h, h2]; exact List.mem_cons_self y ys)
    · exact Or.inr (List.mem_cons_of_mem y h)

theorem foldl_max_lt (l : List ℚ) (b : ℚ) (h : ∀ x ∈ l, x < b) :
    ∀ a, a < b → l.foldl max a < b := by
  induction l with
  | nil =>
    intro a ha
    exact ha
  | cons y ys ih =>
    intro a ha
    simp only [List.foldl_cons]
    exact ih (fun x hx => h x (List.mem_cons_of_mem y hx)) (max a y)
      (max_lt ha (h y (List.mem_cons_self y ys)))

/-! ### The accumulators of the walk, against the spec-side deviation lists -/

theorem compareRow_eq_some (cs : List String) :
    ∀ (rs : List String) (m s : ℚ) (n : ℕ) (m' s' : ℚ) (n' : ℕ),
    compareRow cs rs m s n = some (m', s', n') →
    m' = (rowDevs cs rs).foldl max m ∧ s' = s + (rowDevs cs rs).sum ∧
      n' = n + (rowDevs cs rs).length := by
  induction cs with
  | nil =>
    intro rs m s n m' s' n' h
    cases rs with
    | nil =>
      simp only [compareRow, Option.some.injEq, Prod.mk.injEq] at h
      simp [rowDevs, h.1, h.2.1, h.2.2]
    | cons r rs' => simp [compareRow] at h
  | cons c cs' ih =>
    intro rs m s n m' s' n' h
    cases rs with
    | nil => simp [compareRow] at h
    | cons r rs' =>
      rcases hc : parseCell c with cv | sc <;> rcases hr : parseCell r with rv | sr
      · simp only [compareRow, hc, hr] at h
        obtain ⟨h1, h2, h3⟩ := ih rs' (max (delta cv rv) m) (s + delta cv rv) (n + 1) m' s' n' h
        refine ⟨?_, ?_, ?_⟩
        · rw [h1]
          simp [rowDevs, hc, hr, max_comm]
        · rw [h2]
          simp [rowDevs, hc, hr]
          ring
        · rw [h3]
          simp [rowDevs, hc, hr]
          omega
      · simp [compareRow, hc, hr] at h
      · simp [compareRow, hc, hr] at h
      · by_cases hstrip : pyStrip sc = pyStrip sr
        · simp only [compareRow, hc, hr, hstrip, ne_eq, not_true_eq_false, if_false] at h
          obtain ⟨h1, h2, h3⟩ := ih rs' m s n m' s' n' h
          refine ⟨?_, ?_, ?_⟩ <;> simp [rowDevs, hc, hr, h1, h2, h3]
        · simp [compareRow, hc, hr, hstrip] at h

theorem compareGo_eq_some (rows : List (List String)) :
    ∀ (rowsRef : List (List String)) (m s : ℚ) (n : ℕ) (m' s' : ℚ) (n' : ℕ),
    compareGo rows rowsRef m s n = some (m', s', n') →
    m' = (devsAll rows rowsRef).foldl max m ∧ s' = s + (devsAll rows rowsRef).sum ∧
      n' = n + (devsAll rows rowsRef).length := by
  induction rows with
  | nil =>
    intro rowsRef m s n m' s' n' h
    cases rowsRef with
    | nil =>
      simp only [compareGo, Option.some.injEq, Prod.mk.injEq] at h
      simp [devsAll, h.1, h.2.1, h.2.2]
    | cons _ _ => simp [compareGo] at h
  | cons row rest ih =>
    intro rowsRef m s n m' s' n' h
    cases rowsRef with
    | nil => simp [compareGo] at h
    | cons rowRef restRef =>
      by_cases hlen : row.length = rowRef.length
      · rcases hrow : compareRow row rowRef m s n with _ | ⟨pm, ps, pn⟩
        · simp [compareGo, hlen, hrow] at h
        · simp only [compareGo, hlen, hrow, ne_eq, not_true_eq_false, if_false] at h
          obtain ⟨q1, q2, q3⟩ := compareRow_eq_some row rowRef m s n pm ps pn hrow
          obtain ⟨h1, h2, h3⟩ := ih restRef pm ps pn m' s' n' h
          refine ⟨?_, ?_, ?_⟩
          · rw [h1, q1]
            simp [devsAll, List.foldl_append]
          · rw [h2, q2]
            simp [devsAll]
            ring
          · rw [h3, q3]
            simp [devsAll]
            omega
      · simp [compareGo, hlen] at h

theorem compare_eq_of_go (rows rowsRef : List (List String)) (m s : ℚ) (n : ℕ)
    (h : compareGo rows rowsRef 0 0 0 = some (m, s, n)) :
    NumericCsvResult.compare rows rowsRef = (m, if 0 < n then s / (n : ℚ) else s) := by
  simp [NumericCsvResult.compare, h]

theorem compare_eq_failure_of_go (rows rowsRef : List (List String))
    (h : compareGo rows rowsRef 0 0 0 = none) :
    NumericCsvResult.compare rows rowsRef = FAILURE := by
  simp [NumericCsvResult.compare, h]

theorem rowDevs_nonneg (cs : List String) :
    ∀ (rs : List String), ∀ d ∈ rowDevs cs rs, 0 ≤ d := by
  induction cs with
  | nil =>
    intro rs d hd
    simp [rowDevs] at hd
  | cons c cs' ih =>
    intro rs d hd
    cases rs with
    | nil => simp [rowDevs] at hd
    | cons r rs' =>
      rcases hc : parseCell c with cv | sc <;> rcases hr : parseCell r with rv | sr <;>
        simp only [rowDevs, hc, hr, List.mem_cons] at hd
      · rcases hd with hd | hd
        · rw [hd]
          exact delta_nonneg cv rv
        · exact ih rs' d hd
      · exact ih rs' d hd
      · exact ih rs' d hd
      · exact ih rs' d hd

theorem devsAll_nonneg (rows : List (List String)) :
    ∀ (rowsRef : List (List String)), ∀ d ∈ devsAll rows rowsRef, 0 ≤ d := by
  induction rows with
  | nil =>
    intro rowsRef d hd
    simp [devsAll] at hd
  | cons row rest ih =>
    intro rowsRef d hd
    cases rowsRef with
    | nil => simp [devsAll] at hd
    | cons rowRef restRef =>
      simp only [devsAll, List.mem_append] at hd
      rcases hd with hd | hd
      · exact rowDevs_nonneg row rowRef d hd
      · exact ih restRef d hd

/-! ### Self comparison of purely numeric rows -/

theorem compareRow_self (row : List String)
    (h : ∀ c ∈ row, ∃ v, parseCell c = Cell.num v) :
    ∀ n, ∃ k, compareRow row row 0 0 n = some (0, 0, k) := by
  induction row with
  | nil =>
    intro n
    exact ⟨n, rfl⟩
  | cons c cs ih =>
    intro n
    obtain ⟨v, hv⟩ := h c (List.mem_cons_self c cs)
    obtain ⟨k, hk⟩ := ih (fun x hx => h x (List.mem_cons_of_mem c hx)) (n + 1)
    refine ⟨k, ?_⟩
    simp [compareRow, hv, delta_self, hk]

theorem compareGo_self (rows : List (List String))
    (h : ∀ row ∈ rows, ∀ c ∈ row, ∃ v, parseCell c = Cell.num v) :
    ∀ n, ∃ k, compareGo rows rows 0 0 n = some (0, 0, k) := by
  induction rows with
  | nil =>
    intro n
    exact ⟨n, rfl⟩
  | cons row rest ih =>
    intro n
    obtain ⟨k1, hk1⟩ := compareRow_self row (h row (List.mem_cons_self row rest)) n
    obtain ⟨k, hk⟩ := ih (fun r hr => h r (List.mem_cons_of_mem row hr)) k1
    refine ⟨k, ?_⟩
    simp [compareGo, hk1, hk]

/-! ### Line counting for the sniffer -/

theorem lineCount_decomp : ∀ (N : ℕ) (l : List Char), l.length ≤ N →
    lineCount l = countHash l + lineCount (dropHashLines l) := by
  intro N
  induction N with
  | zero =>
    intro l hl
    rw [List.length_eq_zero.mp (Nat.le_zero.mp hl)]
    simp [lineCount, countHash, dropHashLines]
  | succ N ih =>
    intro l hl
    cases l with
    | nil => simp [lineCount, countHash, dropHashLines]
    | cons c rest =>
      by_cases hc : c = '#'
      · subst hc
        have hlen : (dropLine ('#' :: rest)).length ≤ N := by
          have h1 := dropLine_cons_lt '#' rest
          simp only [List.length_cons] at h1 hl
          omega
        have hrec := ih (dropLine ('#' :: rest)) hlen
        simp only [lineCount, countHash, dropHashLines, if_true]
        omega
      · simp [lineCount, countHash, dropHashLines, hc]

theorem lineCount_eq (l : List Char) :
    lineCount l = countHash l + lineCount (dropHashLines l) :=
  lineCount_decomp l.length l (le_refl _)

theorem countHash_le_lineCount (l : List Char) : countHash l ≤ lineCount l := by
  have := lineCount_eq l
  omega

theorem countHash_succ_le (l : List Char) (h : dropHashLines l ≠ []) :
    countHash l + 1 ≤ lineCount l := by
  have hdec := lineCount_eq l
  rcases hd : dropHashLines l with _ | ⟨c, rest⟩
  · exact absurd hd h
  · have h1 : 1 ≤ lineCount (dropHashLines l) := by
      rw [hd]
      simp only [lineCount]
      omega
    omega

theorem dropHash_ne_nil_of_tokens (content : List Char)
    (h : ¬ tokenCount (sampleOf content) ≤ 1) : dropHashLines content ≠ [] := by
  intro hnil
  apply h
  simp [sampleOf, hnil, tokenCount]

theorem parseCell_num_of_isSome (c : String) (h : (pyFloat c).isSome = true) :
    ∃ v, parseCell c = Cell.num v := by
  rcases hc : pyFloat c with _ | v
  · rw [hc] at h
    cases h
  · exact ⟨v, by simp [parseCell, hc]⟩

/-! ### The claims -/

/-- C1: for every numeric-numeric cell pair the relative deviation is `0` when
both values are exactly zero, `999.9` when the reference is zero but the
candidate is not, and `|candidate - reference| / |reference|` otherwise; in
particular candidate `10.0` against reference `5.0` gives `1.0`, `5.0`
against `0.0` gives `999.9`, and `0.0` against `0.0` gives `0.0`. -/
theorem c1_relative_deviation :
    (∀ c r : ℚ, (c = 0 ∧ r = 0 → delta c r = 0) ∧
      (r = 0 → c ≠ 0 → delta c r = 999.9) ∧
      (r ≠ 0 → delta c r = |c - r| / |r|)) ∧
    NumericCsvResult.compare [["10.0"]] [["5.0"]] = (1, 1) ∧
    NumericCsvResult.compare [["5.0"]] [["0.0"]] = (999.9, 999.9) ∧
    NumericCsvResult.compare [["0.0"]] [["0.0"]] = (0, 0) := by
  refine ⟨?_, ?_, ?_, ?_⟩
  · intro c r
    refine ⟨?_, ?_, ?_⟩
    · intro h
      simp [delta, h]
    · intro hr hc
      simp [delta, hr, hc]
    · intro hr
      rw [delta, if_neg (by tauto), if_neg hr, abs_div]
  · simp +decide [NumericCsvResult.compare, compareGo, compareRow, parseCell, pyFloat, pyStrip,
      parseSigned, parseMantissa, splitDigits, parseExp, parseExpSigned, parseExpNat,
      digitsToNat, mantissaVal, isDig, pyWs, delta, FAILURE]
    all_goals norm_num [abs_of_nonneg]
  · simp +decide [NumericCsvResult.compare, compareGo, compareRow, parseCell, pyFloat, pyStrip,
      parseSigned, parseMantissa, splitDigits, parseExp, parseExpSigned, parseExpNat,
      digitsToNat, mantissaVal, isDig, pyWs, delta, FAILURE]
    all_goals norm_num [abs_of_nonneg]
  · simp +decide [NumericCsvResult.compare, compareGo, compareRow, parseCell, pyFloat, pyStrip,
      parseSigned, parseMantissa, splitDigits, parseExp, parseExpSigned, parseExpNat,
      digitsToNat, mantissaVal, isDig, pyWs, delta, FAILURE]

/-- Witness for C1: the zero-reference branch and the generic branch of the
deviation, applied at the concrete values of the spec's example. -/
theorem c1_relative_deviation_witness :
    ((5 : ℚ) ≠ 0 ∧ delta 10 5 = |(10 : ℚ) - 5| / |(5 : ℚ)|) ∧
      ((0 : ℚ) = 0 ∧ (5 : ℚ) ≠ 0 ∧ delta 5 0 = 999.9) := by
  refine ⟨⟨by norm_num, (c1_relative_deviation.1 10 5).2.2 (by norm_num)⟩,
    rfl, by norm_num, (c1_relative_deviation.1 5 0).2.1 rfl (by norm_num)⟩

/-- C2: when the walk completes without aborting, the returned maximum is the
`max`-fold of the per-cell numeric deviations starting at `0.0` (and with at
least one deviation it is their maximum, attained in the list), the count is
their number, and the mean is sum over count when the count is positive and
`0` otherwise. -/
theorem c2_aggregation (rows rowsRef : List (List String)) (m s : ℚ) (n : ℕ)
    (h : compareGo rows rowsRef 0 0 0 = some (m, s, n)) :
    m = (devsAll rows rowsRef).foldl max 0 ∧
    (devsAll rows rowsRef ≠ [] → m ∈ devsAll rows rowsRef ∧
      ∀ d ∈ devsAll rows rowsRef, d ≤ m) ∧
    s = (devsAll rows rowsRef).sum ∧
    n = (devsAll rows rowsRef).length ∧
    NumericCsvResult.compare rows rowsRef = (m, if 0 < n then s / (n : ℚ) else 0) := by
  obtain ⟨h1, h2, h3⟩ := compareGo_eq_some rows rowsRef 0 0 0 m s n h
  simp only [zero_add] at h2 h3
  refine ⟨h1, ?_, h2, h3, ?_⟩
  · intro hne
    constructor
    · rcases foldl_max_choice (devsAll rows rowsRef) 0 with hch | hch
      · rcases hds : devsAll rows rowsRef with _ | ⟨d, ds⟩
        · exact absurd hds hne
        · have hmem : d ∈ devsAll rows rowsRef := by
            rw [hds]
            exact List.mem_cons_self d ds
          have hle : d ≤ 0 := by
            have h5 := mem_le_foldl_max (devsAll rows rowsRef) d hmem 0
            rw [hch] at h5
            exact h5
          have hge : 0 ≤ d := devsAll_nonneg rows rowsRef d hmem
          have hmd : m = d := by
            rw [h1, hch]
            exact (le_antisymm hle hge).symm
          rw [hmd]
          exact List.mem_cons_self d ds
      · rw [h1]
        exact hch
    · intro d hd
      rw [h1]
      exact mem_le_foldl_max (devsAll rows rowsRef) d hd 0
  · rw [compare_eq_of_go rows rowsRef m s n h]
    by_cases hn : 0 < n
    · simp [hn]
    · have hds : devsAll rows rowsRef = [] := List.length_eq_zero.mp (by omega)
      simp [hn, h2, hds]

/-- Witness for C2: the spec's aggregation example — one row with deviations
`[0.0, 0.5, 1.0]` gives maximum `1.0` and mean `0.5`. -/
theorem c2_aggregation_witness :
    NumericCsvResult.compare [["1", "3", "2"]] [["1", "2", "1"]] = (1, 1 / 2) := by
  have hgo : compareGo [["1", "3", "2"]] [["1", "2", "1"]] 0 0 0 = some (1, 3 / 2, 3) := by
    simp +decide [compareGo, compareRow, parseCell, pyFloat, pyStrip,
      parseSigned, parseMantissa, splitDigits, parseExp, parseExpSigned, parseExpNat,
      digitsToNat, mantissaVal, isDig, pyWs, delta]
    all_goals norm_num [abs_of_nonneg]
  have h := (c2_aggregation _ _ _ _ _ hgo).2.2.2.2
  rw [h]
  norm_num

/-- C3: the lockstep walk returns the sentinel when one side reaches
end-of-file while the other still has a row, terminates successfully when
both end together, aborts on a row pair of differing lengths whatever the
cells hold, and an aborted walk makes `compare` return `(999.9, 999.9)`. -/
theorem c3_lockstep_walk :
    (∀ (rowRef : List String) (restRef : List (List String)) (m s : ℚ) (n : ℕ),
      compareGo [] (rowRef :: restRef) m s n = none) ∧
    (∀ (row : List String) (rest : List (List String)) (m s : ℚ) (n : ℕ),
      compareGo (row :: rest) [] m s n = none) ∧
    (∀ (m s : ℚ) (n : ℕ), compareGo [] [] m s n = some (m, s, n)) ∧
    (∀ (row rowRef : List String) (rest restRef : List (List String)) (m s : ℚ) (n : ℕ),
      row.length ≠ rowRef.length →
      compareGo (row :: rest) (rowRef :: restRef) m s n = none) ∧
    (∀ rows rowsRef : List (List String), compareGo rows rowsRef 0 0 0 = none →
      NumericCsvResult.compare rows rowsRef = FAILURE) := by
  refine ⟨?_, ?_, ?_, ?_, ?_⟩
  · intro rowRef restRef m s n
    rfl
  · intro row rest m s n
    rfl
  · intro m s n
    rfl
  · intro row rowRef rest restRef m s n hlen
    simp [compareGo, hlen]
  · intro rows rowsRef h
    exact compare_eq_failure_of_go rows rowsRef h

/-- Witness for C3: a column-count mismatch aborts whatever the cells hold,
and an aborted walk (here: candidate empty, reference not) yields the
sentinel. -/
theorem c3_lockstep_walk_witness :
    (List.length ["a", "b"] ≠ List.length ["c"] ∧
      compareGo [["a", "b"]] [["c"]] 0 0 0 = none) ∧
    NumericCsvResult.compare [] [["1"]] = FAILURE := by
  refine ⟨⟨by decide, c3_lockstep_walk.2.2.2.1 _ _ _ _ _ _ _ (by decide)⟩,
    c3_lockstep_walk.2.2.2.2 [] [["1"]] rfl⟩

/-- C4: when both cells of a pair fail to parse as numbers, the trimmed
strings are compared and any mismatch returns the sentinel at once; when
exactly one side parses as a number, the sentinel is returned at once; a
first row whose cell loop aborts makes `compare` return `(999.9, 999.9)`. -/
theorem c4_cell_type_aborts :
    (∀ (c r : String) (cs rs : List String) (m s : ℚ) (n : ℕ) (sc sr : String),
      parseCell c = Cell.str sc → parseCell r = Cell.str sr →
      pyStrip sc ≠ pyStrip sr → compareRow (c :: cs) (r :: rs) m s n = none) ∧
    (∀ (c r : String) (cs rs : List String) (m s : ℚ) (n : ℕ) (v : ℚ) (sr : String),
      parseCell c = Cell.num v → parseCell r = Cell.str sr →
      compareRow (c :: cs) (r :: rs) m s n = none) ∧
    (∀ (c r : String) (cs rs : List String) (m s : ℚ) (n : ℕ) (sc : String) (v : ℚ),
      parseCell c = Cell.str sc → parseCell r = Cell.num v →
      compareRow (c :: cs) (r :: rs) m s n = none) ∧
    (∀ (row rowRef : List String) (rest restRef : List (List String)),
      row.length = rowRef.length → compareRow row rowRef 0 0 0 = none →
      NumericCsvResult.compare (row :: rest) (rowRef :: restRef) = FAILURE) ∧
    NumericCsvResult.compare [["abc"]] [["3.14"]] = FAILURE ∧
    NumericCsvResult.compare [["a"]] [["b"]] = FAILURE := by
  refine ⟨?_, ?_, ?_, ?_, ?_, ?_⟩
  · intro c r cs rs m s n sc sr hc hr hs
    simp [compareRow, hc, hr, hs]
  · intro c r cs rs m s n v sr hc hr
    simp [compareRow, hc, hr]
  · intro c r cs rs m s n sc v hc hr
    simp [compareRow, hc, hr]
  · intro row rowRef rest restRef hlen hrow
    apply compare_eq_failure_of_go
    simp [compareGo, hlen, hrow]
  · simp +decide [NumericCsvResult.compare, compareGo, compareRow, parseCell, pyFloat, pyStrip,
      parseSigned, parseMantissa, splitDigits, parseExp, parseExpSigned, parseExpNat,
      digitsToNat, mantissaVal, isDig, pyWs, delta, FAILURE]
  · simp +decide [NumericCsvResult.compare, compareGo, compareRow, parseCell, pyFloat, pyStrip,
      parseSigned, parseMantissa, splitDigits, parseExp, parseExpSigned, parseExpNat,
      digitsToNat, mantissaVal, isDig, pyWs, delta, FAILURE]

/-- Witness for C4: two distinct text cells abort the row loop at once. -/
theorem c4_cell_type_aborts_witness :
    parseCell ("a") = Cell.str ("a") ∧ parseCell ("b") = Cell.str ("b") ∧
      pyStrip ("a") ≠ pyStrip ("b") ∧
      compareRow [("a"), ("x")] [("b"), ("y")] 0 0 0 = none := by
  have h1 : parseCell ("a") = Cell.str ("a") := by decide
  have h2 : parseCell ("b") = Cell.str ("b") := by decide
  have h3 : pyStrip ("a") ≠ pyStrip ("b") := by decide
  exact ⟨h1, h2, h3, c4_cell_type_aborts.1 _ _ _ _ _ _ _ _ _ h1 h2 h3⟩

/-- C5: the accumulators change only on numeric-numeric pairs — a matching
text-text pair passes the running maximum, running sum and count through
unchanged, while a numeric-numeric pair folds in exactly its deviation and
increments the count. -/
theorem c5_accumulator_updates :
    (∀ (c r : String) (cs rs : List String) (m s : ℚ) (n : ℕ) (sc sr : String),
      parseCell c = Cell.str sc → parseCell r = Cell.str sr → pyStrip sc = pyStrip sr →
      compareRow (c :: cs) (r :: rs) m s n = compareRow cs rs m s n) ∧
    (∀ (c r : String) (cs rs : List String) (m s : ℚ) (n : ℕ) (cv rv : ℚ),
      parseCell c = Cell.num cv → parseCell r = Cell.num rv →
      compareRow (c :: cs) (r :: rs) m s n =
        compareRow cs rs (max (delta cv rv) m) (s + delta cv rv) (n + 1)) := by
  constructor
  · intro c r cs rs m s n sc sr hc hr hs
    simp [compareRow, hc, hr, hs]
  · intro c r cs rs m s n cv rv hc hr
    simp [compareRow, hc, hr]

/-- Witness for C5: the spec's string-equality example — `"OK"` cells with
differing surrounding whitespace pass the accumulators through unchanged. -/
theorem c5_accumulator_updates_witness :
    parseCell ("OK") = Cell.str ("OK") ∧ parseCell (" OK ") = Cell.str (" OK ") ∧
      pyStrip ("OK") = pyStrip (" OK ") ∧
      compareRow [("OK")] [(" OK ")] 0 0 0 = compareRow [] [] 0 0 0 := by
  have h1 : parseCell ("OK") = Cell.str ("OK") := by decide
  have h2 : parseCell (" OK ") = Cell.str (" OK ") := by decide
  have h3 : pyStrip ("OK") = pyStrip (" OK ") := by decide
  exact ⟨h1, h2, h3, c5_accumulator_updates.1 _ _ _ _ _ _ _ _ _ h1 h2 h3⟩

/-- C6: a purely numeric row stream compared against itself — the same file
with the same sniffed descriptor yields the identical rows on both sides —
returns exactly `(0.0, 0.0)`. -/
theorem c6_self_comparison (rows : List (List String))
    (h : ∀ row ∈ rows, ∀ c ∈ row, ∃ v, parseCell c = Cell.num v) :
    NumericCsvResult.compare rows rows = (0, 0) := by
  obtain ⟨k, hk⟩ := compareGo_self rows h 0
  rw [compare_eq_of_go rows rows 0 0 k hk]
  simp

/-- Witness for C6: a two-row all-numeric file compared against itself. -/
theorem c6_self_comparison_witness :
    NumericCsvResult.compare [["2", "0.5"], ["0"]] [["2", "0.5"], ["0"]] = (0, 0) := by
  apply c6_self_comparison
  intro row hrow c hc
  apply parseCell_num_of_isSome
  simp only [List.mem_cons, List.not_mem_nil, or_false] at hrow
  rcases hrow with hrow | hrow <;> subst hrow <;>
    simp only [List.mem_cons, List.not_mem_nil, or_false] at hc
  · rcases hc with hc | hc <;> subst hc <;> decide
  · subst hc
    decide

/-- C7: sniffing never fails on content — a sample of at most one
whitespace-separated token keeps the `'excel'` default dialect, a sniffer
error falls back to it, and the empty file yields the default dialect with a
header count of `0`. -/
theorem c7_sniff_fallback (o : SniffOracle) (content : List Char) :
    (tokenCount (sampleOf content) ≤ 1 → (identify_format o content).1 = Dialect.excel) ∧
    (o.sniff (sampleOf content) = none → (identify_format o content).1 = Dialect.excel) ∧
    identify_format o [] = (Dialect.excel, 0) := by
  refine ⟨?_, ?_, ?_⟩
  · intro h
    simp [identify_format, h]
  · intro h
    by_cases ht : tokenCount (sampleOf content) ≤ 1
    · simp [identify_format, ht]
    · simp [identify_format, ht, h]
  · simp [identify_format, sampleOf, dropHashLines, countHash, tokenCount]

/-- Witness for C7: a one-token file keeps the default dialect, and an oracle
that always raises keeps the default dialect on a two-token file. -/
theorem c7_sniff_fallback_witness :
    (tokenCount (sampleOf ['a']) ≤ 1 ∧
      (identify_format ⟨fun _ => none, fun _ => none⟩ ['a']).1 = Dialect.excel) ∧
    (identify_format ⟨fun _ => none, fun _ => none⟩ ['a', ' ', 'b']).1 = Dialect.excel := by
  have ht : tokenCount (sampleOf ['a']) ≤ 1 := by
    simp +decide [sampleOf, dropHashLines, dropLine, tokenCount, pyWs]
  exact ⟨⟨ht, (c7_sniff_fallback _ _).1 ht⟩, (c7_sniff_fallback _ _).2.1 rfl⟩

/-- C8: the header line count produced by sniffing never exceeds the total
number of lines of the file, whichever branch produced it, including the
header-likelihood increment. -/
theorem c8_header_count_bounded (o : SniffOracle) (content : List Char) :
    (identify_format o content).2 ≤ lineCount content := by
  have hbase := countHash_le_lineCount content
  simp only [identify_format]
  by_cases ht : tokenCount (sampleOf content) ≤ 1
  · simp only [ht, if_true]
    exact hbase
  · simp only [ht, if_false]
    rcases hsn : o.sniff (sampleOf content) with _ | d
    · exact hbase
    · rcases hh : o.has_header (sampleOf content) with _ | b
      · exact hbase
      · rcases b with _ | _
        · simpa using hbase
        · simpa using countHash_succ_le content (dropHash_ne_nil_of_tokens content ht)

/-- C9 counterexample: a walk that completes with no abort can return exactly
the sentinel pair — a single numeric cell `5.0` against reference `0.0` is
graded `999.9`, so the successful comparison returns `(999.9, 999.9)`. -/
theorem c9_counterexample :
    compareGo [["5.0"]] [["0.0"]] 0 0 0 = some (999.9, 999.9, 1) ∧
    NumericCsvResult.compare [["5.0"]] [["0.0"]] = (999.9, 999.9) := by
  constructor
  · simp +decide [compareGo, compareRow, parseCell, pyFloat, pyStrip,
      parseSigned, parseMantissa, splitDigits, parseExp, parseExpSigned, parseExpNat,
      digitsToNat, mantissaVal, isDig, pyWs, delta]
    all_goals norm_num
  · simp +decide [NumericCsvResult.compare, compareGo, compareRow, parseCell, pyFloat, pyStrip,
      parseSigned, parseMantissa, splitDigits, parseExp, parseExpSigned, parseExpNat,
      digitsToNat, mantissaVal, isDig, pyWs, delta, FAILURE]
    all_goals norm_num

/-- C9 amended: the sentinel is distinguishable from the scores of walks in
which every per-cell deviation stays below `999.9` — such a completed
comparison never returns `(999.9, 999.9)`. -/
theorem c9_sentinel_distinguishable (rows rowsRef : List (List String)) (m s : ℚ) (n : ℕ)
    (hgo : compareGo rows rowsRef 0 0 0 = some (m, s, n))
    (hlt : ∀ d ∈ devsAll rows rowsRef, d < 999.9) :
    NumericCsvResult.compare rows rowsRef ≠ FAILURE := by
  obtain ⟨h1, _, _⟩ := compareGo_eq_some rows rowsRef 0 0 0 m s n hgo
  have hm : m < 999.9 := by
    rw [h1]
    exact foldl_max_lt (devsAll rows rowsRef) _ hlt 0 (by norm_num)
  rw [compare_eq_of_go rows rowsRef m s n hgo, FAILURE]
  intro hcontra
  rw [Prod.mk.injEq] at hcontra
  rw [hcontra.1] at hm
  exact absurd hm (lt_irrefl _)

/-- Witness for C9's amended statement: a single-cell comparison with
deviation `0.5` does not return the sentinel. -/
theorem c9_sentinel_distinguishable_witness :
    NumericCsvResult.compare [["1.0"]] [["2.0"]] ≠ FAILURE := by
  have hgo : compareGo [["1.0"]] [["2.0"]] 0 0 0 = some (1 / 2, 1 / 2, 1) := by
    simp +decide [compareGo, compareRow, parseCell, pyFloat, pyStrip,
      parseSigned, parseMantissa, splitDigits, parseExp, parseExpSigned, parseExpNat,
      digitsToNat, mantissaVal, isDig, pyWs, delta]
    all_goals norm_num [abs_of_nonneg]
  have hdevs : ∀ d ∈ devsAll [["1.0"]] [["2.0"]], d < 999.9 := by
    intro d hd
    simp +decide [devsAll, rowDevs, parseCell, pyFloat, pyStrip,
      parseSigned, parseMantissa, splitDigits, parseExp, parseExpSigned, parseExpNat,
      digitsToNat, mantissaVal, isDig, pyWs, delta] at hd
    rw [hd]
    norm_num [abs_of_nonneg]
  exact c9_sentinel_distinguishable _ _ _ _ _ hgo hdevs

/-- C10: a walk that completes without aborting returns a mean deviation that
is non-negative and at most the maximum deviation. -/
theorem c10_mean_le_max (rows rowsRef : List (List String)) (m s : ℚ) (n : ℕ)
    (hgo : compareGo rows rowsRef 0 0 0 = some (m, s, n)) :
    0 ≤ (NumericCsvResult.compare rows rowsRef).2 ∧
    (NumericCsvResult.compare rows rowsRef).2 ≤ (NumericCsvResult.compare rows rowsRef).1 := by
  obtain ⟨h1, h2, h3⟩ := compareGo_eq_some rows rowsRef 0 0 0 m s n hgo
  simp only [zero_add] at h2 h3
  rw [compare_eq_of_go rows rowsRef m s n hgo]
  have hm0 : 0 ≤ m := by
    rw [h1]
    exact le_foldl_max (devsAll rows rowsRef) 0
  have hs0 : 0 ≤ s := by
    rw [h2]
    exact List.sum_nonneg (devsAll_nonneg rows rowsRef)
  by_cases hn : 0 < n
  · have hnq : (0 : ℚ) < (n : ℚ) := by exact_mod_cast hn
    have hsle : s ≤ (n : ℚ) * m := by
      rw [h2, h3]
      calc (devsAll rows rowsRef).sum
          ≤ (devsAll rows rowsRef).length • m :=
            List.sum_le_card_nsmul (devsAll rows rowsRef) m
              (fun x hx => by
                rw [h1]
                exact mem_le_foldl_max (devsAll rows rowsRef) x hx 0)
        _ = ((devsAll rows rowsRef).length : ℚ) * m := by rw [nsmul_eq_mul]
    constructor
    · simp only [hn, if_true]
      exact div_nonneg hs0 (le_of_lt hnq)
    · simp only [hn, if_true]
      rw [div_le_iff₀ hnq]
      linarith
  · have hds : devsAll rows rowsRef = [] := List.length_eq_zero.mp (by omega)
    have hs : s = 0 := by
      rw [h2, hds, List.sum_nil]
    constructor
    · simp only [hn, if_false, hs]
      exact le_refl 0
    · simp only [hn, if_false, hs]
      exact hm0

/-- Witness for C10 at a concrete completed walk with deviations `[0, 0.5]`. -/
theorem c10_mean_le_max_witness :
    0 ≤ (NumericCsvResult.compare [["1", "3"]] [["1", "2"]]).2 ∧
    (NumericCsvResult.compare [["1", "3"]] [["1", "2"]]).2 ≤
      (NumericCsvResult.compare [["1", "3"]] [["1", "2"]]).1 := by
  apply c10_mean_le_max [["1", "3"]] [["1", "2"]] (1 / 2) (1 / 2) 2
  simp +decide [compareGo, compareRow, parseCell, pyFloat, pyStrip,
    parseSigned, parseMantissa, splitDigits, parseExp, parseExpSigned, parseExpNat,
    digitsToNat, mantissaVal, isDig, pyWs, delta]
  all_goals norm_num [abs_of_nonneg]

end NrtestCsv
